import Mathlib

/-!
# Verification of the notify-hub-api Schedule Execution & Retry Engine

Shallow embedding of the schedule store and execution engine of the
`hanmind/notify-hub-api` repository:

* `app/models/schedule.py` — the `Schedule` entity, its status and type enums;
* `app/repositories/schedule_repository.py` — `get_pending_schedules_by_time_and_type`,
  `update_status`, `handle_failure`;
* `app/routers/email_router.py` — `execute_pending_email_schedules` (the cycle
  endpoint) and `execute_single_email_schedule` (one execution unit);
* `app/services/email_service.py` and `ncloud_mailer/config.py` — the
  sender-address resolution chain.

Timestamps are modelled as natural numbers counting microseconds since the
epoch, so that `datetime.replace(second=0, microsecond=0)` becomes truncation
to a whole minute and `timedelta(seconds=n)` becomes `+ n * 1000000`.
The SQLAlchemy session is modelled as a list of schedule rows; the query
`db.query(Schedule).filter(Schedule.id == schedule_id).first()` becomes a
first-match lookup on that list.
-/

namespace NotifyHub

/-- Microseconds in one second (`timedelta(seconds=1)`). -/
def usPerSecond : Nat := 1000000

/-- Microseconds in one minute. -/
def usPerMinute : Nat := 60000000

/-- `ScheduleStatus` enum from `app/models/schedule.py`. -/
inductive ScheduleStatus where
  | PENDING
  | PROCESSING
  | COMPLETED
  | FAILED
  | CANCELLED
deriving DecidableEq, Repr

/-- `ScheduleType` enum from `app/models/schedule.py`. -/
inductive ScheduleType where
  | EMAIL
  | SMS
  | KAKAO
deriving DecidableEq, Repr

/-- The `Schedule` row from `app/models/schedule.py`: one persisted schedule.
Timestamps are microseconds since the epoch; nullable columns are `Option`. -/
structure ScheduleR where
  id : Nat
  api_key_id : Nat
  schedule_name : String
  schedule_type : ScheduleType
  scheduled_at : Nat
  timezone : String
  payload : String
  status : ScheduleStatus
  executed_at : Option Nat
  max_retry : Nat
  retry_count : Nat
  retry_interval : Nat
  result : Option String
  error_message : Option String
  created_at : Nat
  updated_at : Nat
deriving DecidableEq, Repr

/-- The schedule store: the rows of the `schedules` table, in query order. -/
abbrev Store := List ScheduleR

/-- `datetime.utcnow().replace(second=0, microsecond=0)` on a microsecond
timestamp: zero the second and microsecond components, i.e. truncate to the
enclosing whole minute. -/
def truncToMinute (t : Nat) : Nat := t - t % usPerMinute

/-- `db.query(Schedule).filter(Schedule.id == schedule_id).first()`:
first row with the given id, if any. -/
def findById (sid : Nat) (store : Store) : Option ScheduleR :=
  store.find? (fun s => s.id == sid)

/-- Replace the first row with the given id by its image under `f`
(SQLAlchemy mutates the fetched ORM object in place and commits). -/
def updateFirst (sid : Nat) (f : ScheduleR → ScheduleR) : Store → Store
  | [] => []
  | s :: rest =>
      if s.id == sid then f s :: rest else s :: updateFirst sid f rest

/-- The per-row mutation performed by `ScheduleRepository.handle_failure`
(lines 66–87 of `schedule_repository.py`): increment `retry_count`, set
`error_message` and `updated_at`; if the new count reaches `max_retry`, mark
FAILED, else re-arm PENDING with `scheduled_at` set to the current time
truncated to the minute plus `retry_interval` seconds. -/
def handleFailureRow (now : Nat) (msg : String) (s : ScheduleR) : ScheduleR :=
  let rc := s.retry_count + 1
  if s.max_retry ≤ rc then
    { s with retry_count := rc, error_message := some msg,
             updated_at := now, status := ScheduleStatus.FAILED }
  else
    { s with retry_count := rc, error_message := some msg,
             updated_at := now, status := ScheduleStatus.PENDING,
             scheduled_at := truncToMinute now + s.retry_interval * usPerSecond }

/-- `ScheduleRepository.handle_failure(schedule_id, error_message)`: look up
the row; when present, apply `handleFailureRow` and return the updated row;
when absent, leave the store untouched and return `none` (the Python method
returns the local `schedule` variable, which is `None` in that case). -/
def handle_failure (store : Store) (schedule_id : Nat) (error_message : String)
    (now : Nat) : Store × Option ScheduleR :=
  match findById schedule_id store with
  | none => (store, none)
  | some s =>
      let s' := handleFailureRow now error_message s
      (updateFirst schedule_id (fun _ => s') store, some s')

/-- The per-row mutation performed by `ScheduleRepository.update_status`
(lines 46–64 of `schedule_repository.py`): set `status` and `updated_at`;
set `executed_at` only when the argument is provided (`if executed_at:`, and a
`datetime` is always truthy); set `result` only when the argument is provided
and truthy (`if result:` — the empty string is falsy in Python). -/
def updateStatusRow (now : Nat) (st : ScheduleStatus) (executed_at : Option Nat)
    (result : Option String) (s : ScheduleR) : ScheduleR :=
  { s with
    status := st,
    executed_at := match executed_at with
      | some t => some t
      | none => s.executed_at,
    result := match result with
      | some r => if r = "" then s.result else some r
      | none => s.result,
    updated_at := now }

/-- `ScheduleRepository.update_status(schedule_id, status, executed_at, result)`:
look up the row; when present, apply `updateStatusRow` and return the updated
row; when absent, leave the store untouched and return `none` — the method
has no error path, it returns its local `schedule` variable (`None`). -/
def update_status (store : Store) (schedule_id : Nat) (status : ScheduleStatus)
    (executed_at : Option Nat) (result : Option String) (now : Nat) :
    Store × Option ScheduleR :=
  match findById schedule_id store with
  | none => (store, none)
  | some s =>
      let s' := updateStatusRow now status executed_at result s
      (updateFirst schedule_id (fun _ => s') store, some s')

/-- The row filter of `get_pending_schedules_by_time_and_type`:
`scheduled_at <= current_time`, `status == PENDING`, `schedule_type == t`. -/
def isDuePendingOfType (current_time : Nat) (t : ScheduleType)
    (s : ScheduleR) : Bool :=
  decide (s.scheduled_at ≤ current_time)
    && decide (s.status = ScheduleStatus.PENDING)
    && decide (s.schedule_type = t)

/-- `ScheduleRepository.get_pending_schedules_by_time_and_type(current_time,
schedule_type)` (lines 28–40 of `schedule_repository.py`): all rows passing
the three filter conditions. -/
def get_pending_schedules_by_time_and_type (store : Store) (current_time : Nat)
    (schedule_type : ScheduleType) : List ScheduleR :=
  store.filter (isDuePendingOfType current_time schedule_type)

/-! ## The execution cycle (`execute_pending_email_schedules`)

The endpoint (lines 613–677 of `email_router.py`) captures `now`, queries the
due PENDING EMAIL schedules, and for each one calls
`background_tasks.add_task(execute_single_email_schedule, schedule, db)`.
FastAPI background tasks run only after the HTTP response has been sent, so
the endpoint itself performs **no** store mutation: it returns counts, details
and — in this model — the list of queued execution units.  `add_task` may
itself raise; that possibility is modelled by the `dispatchOk` oracle over
schedule ids; a raise is caught, counted in `failed_count` and recorded in
`details` with status string "failed", without queueing the unit. -/

/-- The value returned by one invocation of the cycle endpoint, plus the
execution units it queued (the snapshot `Schedule` objects handed to
`add_task`). `details` records `(schedule_id, status string)` pairs in
iteration order. -/
structure CycleResult where
  executed_count : Nat
  failed_count : Nat
  details : List (Nat × String)
  queued : List ScheduleR
deriving DecidableEq, Repr

/-- The `for schedule in pending_schedules` loop of
`execute_pending_email_schedules`. -/
def cycleLoop (dispatchOk : Nat → Bool) : List ScheduleR → CycleResult
  | [] => ⟨0, 0, [], []⟩
  | s :: rest =>
      let r := cycleLoop dispatchOk rest
      if dispatchOk s.id then
        ⟨r.executed_count + 1, r.failed_count,
          (s.id, "started") :: r.details, s :: r.queued⟩
      else
        ⟨r.executed_count, r.failed_count + 1,
          (s.id, "failed") :: r.details, r.queued⟩

/-- `execute_pending_email_schedules` (lines 613–677 of `email_router.py`):
snapshot the due PENDING EMAIL schedules at `now` and dispatch each one,
counting started and failed-to-start.  The store is not changed by the
endpoint; the queued units run after the response. -/
def execute_pending_email_schedules (store : Store) (now : Nat)
    (dispatchOk : Nat → Bool) : CycleResult :=
  cycleLoop dispatchOk (get_pending_schedules_by_time_and_type store now ScheduleType.EMAIL)

/-! ## One execution unit (`execute_single_email_schedule`) -/

/-- Outcome of the attempt body of one execution unit: either the send
succeeded with an encoded provider response, or some step (payload decode,
sender invocation, …) raised with a message.  The unit transitions the store
accordingly. -/
inductive SendOutcome where
  | success (result : String)
  | failure (error : String)
deriving DecidableEq, Repr

/-- `execute_single_email_schedule(schedule, db)` (lines 680–733 of
`email_router.py`): mark PROCESSING, attempt the send, then on success
`update_status(id, COMPLETED, executed_at=now, result=json.dumps(result))`,
on any exception `handle_failure(id, str(e))`.  `tProc` is the time of the
PROCESSING write, `tDone` the time of the terminal write. -/
def execute_single_email_schedule (store : Store) (sch : ScheduleR)
    (outcome : SendOutcome) (tProc tDone : Nat) : Store :=
  let store1 :=
    (update_status store sch.id ScheduleStatus.PROCESSING none none tProc).1
  match outcome with
  | SendOutcome.success r =>
      (update_status store1 sch.id ScheduleStatus.COMPLETED
        (some tDone) (some r) tDone).1
  | SendOutcome.failure e =>
      (handle_failure store1 sch.id e tDone).1

/-- Run every queued execution unit of a cycle, each with its own outcome
(selected by schedule id). -/
def runUnits (store : Store) (units : List ScheduleR)
    (outcome : Nat → SendOutcome) (tProc tDone : Nat) : Store :=
  units.foldl (fun st u => execute_single_email_schedule st u (outcome u.id) tProc tDone) store

/-- Run only the first step (the PROCESSING transition) of every queued
execution unit — the prefix of the units' work that is relevant to the
back-to-back idempotence property. -/
def runProcessingSteps (store : Store) (units : List ScheduleR) (tProc : Nat) : Store :=
  units.foldl
    (fun st u => (update_status st u.id ScheduleStatus.PROCESSING none none tProc).1)
    store

/-! ## Sender-address resolution

`EmailService.send_single_email` / `send_bulk_email` resolve the effective
sender at execution time: the request (payload) value when truthy, else
`_get_sender_email_by_api_key`, which looks up the owning `ApiKey` row and
maps its `service_name` through `NCloudConfig.get_sender_email_by_service`,
falling back to the global `NCLOUD_SENDER_EMAIL` default.  Environment
variables are modelled as a total map to strings where `""` stands for an
unset (falsy) variable, matching Python truthiness checks. -/

/-- The `ApiKey` row fields used by sender resolution. -/
structure ApiKeyR where
  id : Nat
  service_name : String
deriving DecidableEq, Repr

/-- `NCloudConfig`: the environment it reads. -/
structure NCloudConfigR where
  env : String → String

/-- `NCloudConfig.sender_address`: the `NCLOUD_SENDER_EMAIL` variable (the
property raises when it is unset; resolution happens only in configurations
where it is set, so the model returns the raw value). -/
def sender_address (cfg : NCloudConfigR) : String :=
  cfg.env ("NCLOUD_SENDER_EMAIL")

/-- The `service_email_map` normalisation in
`NCloudConfig.get_sender_email_by_service`. -/
def serviceEmailKey (service_name : String) : String :=
  if service_name = "service_a" then "SERVICE_A"
  else if service_name = "service_b" then "SERVICE_B"
  else if service_name = "service_c" then "SERVICE_C"
  else service_name.toUpper

/-- `NCloudConfig.get_sender_email_by_service(service_name)` (lines 74–104 of
`ncloud_mailer/config.py`): read `NCLOUD_SENDER_EMAIL_<KEY>`; when truthy,
return it, else fall back to the default sender address. -/
def get_sender_email_by_service (cfg : NCloudConfigR) (service_name : String) : String :=
  let v := cfg.env ("NCLOUD_SENDER_EMAIL_" ++ serviceEmailKey service_name)
  if v = "" then sender_address cfg else v

/-- `EmailService._get_sender_email_by_api_key(api_key_id)` (lines 49–83 of
`email_service.py`), with a database present: look up the `ApiKey` row; when
absent, return the default sender; else map its service name. -/
def get_sender_email_by_api_key (db : List ApiKeyR) (cfg : NCloudConfigR)
    (api_key_id : Nat) : String :=
  match db.find? (fun k => k.id == api_key_id) with
  | none => sender_address cfg
  | some k => get_sender_email_by_service cfg k.service_name

/-- The sender resolution performed inside `send_single_email` /
`send_bulk_email` for one schedule execution: the payload's
`sender_address` when truthy (`if not sender_email:`), else the API-key
lookup chain. -/
def resolveEffectiveSender (db : List ApiKeyR) (cfg : NCloudConfigR)
    (payload_sender : Option String) (api_key_id : Nat) : String :=
  match payload_sender with
  | some s => if s = "" then get_sender_email_by_api_key db cfg api_key_id else s
  | none => get_sender_email_by_api_key db cfg api_key_id

/-- Sender resolution over a whole batch of executions, one `(payload sender,
api_key_id)` pair per schedule: each is resolved afresh by the same pure
chain, with no state carried from one schedule to the next. -/
def resolveSendersForExecutions (db : List ApiKeyR) (cfg : NCloudConfigR)
    (xs : List (Option String × Nat)) : List String :=
  xs.map (fun x => resolveEffectiveSender db cfg x.1 x.2)

/-! ## Engine transitions as a step relation

For the invariant claims, engine activity on the store is abstracted as a
step relation: the engine marks a PENDING schedule PROCESSING, completes a
PROCESSING schedule, or records a failure on a PROCESSING schedule via
`handle_failure` (spec §5: within one schedule's lifecycle, PROCESSING
always precedes any terminal or retry transition). -/

/-- One engine-driven store transition. -/
inductive EngineStep : Store → Store → Prop where
  | markProcessing (store : Store) (sid : Nat) (s : ScheduleR) (now : Nat)
      (hfind : findById sid store = some s)
      (hst : s.status = ScheduleStatus.PENDING) :
      EngineStep store
        (update_status store sid ScheduleStatus.PROCESSING none none now).1
  | complete (store : Store) (sid : Nat) (s : ScheduleR) (now : Nat)
      (result : String)
      (hfind : findById sid store = some s)
      (hst : s.status = ScheduleStatus.PROCESSING) :
      EngineStep store
        (update_status store sid ScheduleStatus.COMPLETED (some now) (some result) now).1
  | fail (store : Store) (sid : Nat) (s : ScheduleR) (now : Nat) (msg : String)
      (hfind : findById sid store = some s)
      (hst : s.status = ScheduleStatus.PROCESSING) :
      EngineStep store (handle_failure store sid msg now).1

/-- Zero or more engine transitions. -/
inductive EngineReach : Store → Store → Prop where
  | refl (store : Store) : EngineReach store store
  | step {s1 s2 s3 : Store} : EngineReach s1 s2 → EngineStep s2 s3 → EngineReach s1 s3

/-! ## Basic lemmas about the store operations -/

lemma handleFailureRow_id (now : Nat) (msg : String) (s : ScheduleR) :
    (handleFailureRow now msg s).id = s.id := by
  unfold handleFailureRow
  by_cases h : s.max_retry ≤ s.retry_count + 1 <;> simp [h]

lemma updateStatusRow_id (now : Nat) (st : ScheduleStatus) (ea : Option Nat)
    (r : Option String) (s : ScheduleR) :
    (updateStatusRow now st ea r s).id = s.id := rfl

lemma handleFailureRow_retry_count (now : Nat) (msg : String) (s : ScheduleR) :
    (handleFailureRow now msg s).retry_count = s.retry_count + 1 := by
  unfold handleFailureRow
  by_cases hb : s.max_retry ≤ s.retry_count + 1 <;> simp [hb]

lemma handleFailureRow_max_retry (now : Nat) (msg : String) (s : ScheduleR) :
    (handleFailureRow now msg s).max_retry = s.max_retry := by
  unfold handleFailureRow
  by_cases hb : s.max_retry ≤ s.retry_count + 1 <;> simp [hb]

lemma handleFailureRow_error_message (now : Nat) (msg : String) (s : ScheduleR) :
    (handleFailureRow now msg s).error_message = some msg := by
  unfold handleFailureRow
  by_cases hb : s.max_retry ≤ s.retry_count + 1 <;> simp [hb]

lemma handleFailureRow_result (now : Nat) (msg : String) (s : ScheduleR) :
    (handleFailureRow now msg s).result = s.result := by
  unfold handleFailureRow
  by_cases hb : s.max_retry ≤ s.retry_count + 1 <;> simp [hb]

lemma handleFailureRow_status_failed (now : Nat) (msg : String) (s : ScheduleR)
    (hb : s.max_retry ≤ s.retry_count + 1) :
    (handleFailureRow now msg s).status = ScheduleStatus.FAILED := by
  simp [handleFailureRow, hb]

lemma handleFailureRow_status_pending (now : Nat) (msg : String) (s : ScheduleR)
    (hb : ¬ s.max_retry ≤ s.retry_count + 1) :
    (handleFailureRow now msg s).status = ScheduleStatus.PENDING := by
  simp [handleFailureRow, hb]

lemma handleFailureRow_scheduled_at_failed (now : Nat) (msg : String) (s : ScheduleR)
    (hb : s.max_retry ≤ s.retry_count + 1) :
    (handleFailureRow now msg s).scheduled_at = s.scheduled_at := by
  simp [handleFailureRow, hb]

lemma handleFailureRow_scheduled_at_pending (now : Nat) (msg : String) (s : ScheduleR)
    (hb : ¬ s.max_retry ≤ s.retry_count + 1) :
    (handleFailureRow now msg s).scheduled_at =
      truncToMinute now + s.retry_interval * usPerSecond := by
  simp [handleFailureRow, hb]

lemma findById_id_eq {sid : Nat} {store : Store} {s : ScheduleR}
    (h : findById sid store = some s) : s.id = sid := by
  have := List.find?_some h
  simpa using this

lemma findById_cons {sid : Nat} {s : ScheduleR} {rest : Store} :
    findById sid (s :: rest) =
      if s.id = sid then some s else findById sid rest := by
  by_cases h : s.id = sid <;> simp [findById, List.find?_cons, h]

lemma mem_updateFirst {t : ScheduleR} {sid : Nat} {f : ScheduleR → ScheduleR} :
    ∀ {store : Store}, t ∈ updateFirst sid f store →
      t ∈ store ∨ ∃ u, findById sid store = some u ∧ t = f u := by
  intro store
  induction store with
  | nil => intro h; exact absurd h (by simp [updateFirst])
  | cons s rest ih =>
    intro h
    by_cases hs : s.id = sid
    · rw [updateFirst, if_pos (by simpa using hs)] at h
      rcases List.mem_cons.mp h with h1 | h1
      · exact Or.inr ⟨s, by simp [findById_cons, hs], h1⟩
      · exact Or.inl (List.mem_cons_of_mem _ h1)
    · rw [updateFirst, if_neg (by simpa using hs)] at h
      rcases List.mem_cons.mp h with h1 | h1
      · exact Or.inl (h1 ▸ List.mem_cons_self _ _)
      · rcases ih h1 with h2 | ⟨u, hu, ht⟩
        · exact Or.inl (List.mem_cons_of_mem _ h2)
        · exact Or.inr ⟨u, by simp [findById_cons, hs, hu], ht⟩

lemma findById_updateFirst_ne {tid sid : Nat} {f : ScheduleR → ScheduleR}
    (hf : ∀ s : ScheduleR, s.id = sid → (f s).id = sid) (hne : tid ≠ sid) :
    ∀ store : Store, findById tid (updateFirst sid f store) = findById tid store := by
  intro store
  induction store with
  | nil => rfl
  | cons s rest ih =>
    by_cases hs : s.id = sid
    · rw [updateFirst, if_pos (by simpa using hs)]
      rw [findById_cons, findById_cons, if_neg (by rw [hf s hs]; exact fun h => hne h.symm),
        if_neg (fun h => hne (hs ▸ h.symm))]
    · rw [updateFirst, if_neg (by simpa using hs)]
      rw [findById_cons, findById_cons, ih]

lemma findById_updateFirst_eq {sid : Nat} {f : ScheduleR → ScheduleR}
    (hf : ∀ s : ScheduleR, s.id = sid → (f s).id = sid) :
    ∀ store : Store,
      findById sid (updateFirst sid f store) = (findById sid store).map f := by
  intro store
  induction store with
  | nil => rfl
  | cons s rest ih =>
    by_cases hs : s.id = sid
    · rw [updateFirst, if_pos (by simpa using hs)]
      rw [findById_cons, findById_cons, if_pos (hf s hs), if_pos hs]
      rfl
    · rw [updateFirst, if_neg (by simpa using hs)]
      rw [findById_cons, findById_cons, if_neg hs, if_neg hs, ih]

/-! ### Lemmas about `handle_failure` -/

lemma handle_failure_snd {store : Store} {sid : Nat} {s : ScheduleR}
    (msg : String) (now : Nat) (h : findById sid store = some s) :
    (handle_failure store sid msg now).2 = some (handleFailureRow now msg s) := by
  simp [handle_failure, h]

lemma handle_failure_fst {store : Store} {sid : Nat} {s : ScheduleR}
    (msg : String) (now : Nat) (h : findById sid store = some s) :
    (handle_failure store sid msg now).1 =
      updateFirst sid (fun _ => handleFailureRow now msg s) store := by
  simp [handle_failure, h]

lemma findById_handle_failure_ne {tid sid : Nat} {store : Store}
    (msg : String) (now : Nat) (hne : tid ≠ sid) :
    findById tid (handle_failure store sid msg now).1 = findById tid store := by
  cases hfind : findById sid store with
  | none => simp [handle_failure, hfind]
  | some s =>
    rw [handle_failure_fst msg now hfind]
    exact findById_updateFirst_ne
      (fun u _ => by rw [handleFailureRow_id]; exact findById_id_eq hfind) hne _

lemma findById_handle_failure_eq {sid : Nat} {store : Store} {s : ScheduleR}
    (msg : String) (now : Nat) (h : findById sid store = some s) :
    findById sid (handle_failure store sid msg now).1 =
      some (handleFailureRow now msg s) := by
  rw [handle_failure_fst msg now h]
  rw [findById_updateFirst_eq
    (fun u _ => by rw [handleFailureRow_id]; exact findById_id_eq h), h]
  rfl

/-! ### Lemmas about `update_status` -/

lemma update_status_snd {store : Store} {sid : Nat} {s : ScheduleR}
    (st : ScheduleStatus) (ea : Option Nat) (r : Option String) (now : Nat)
    (h : findById sid store = some s) :
    (update_status store sid st ea r now).2 = some (updateStatusRow now st ea r s) := by
  simp [update_status, h]

lemma update_status_fst {store : Store} {sid : Nat} {s : ScheduleR}
    (st : ScheduleStatus) (ea : Option Nat) (r : Option String) (now : Nat)
    (h : findById sid store = some s) :
    (update_status store sid st ea r now).1 =
      updateFirst sid (fun _ => updateStatusRow now st ea r s) store := by
  simp [update_status, h]

lemma findById_update_status_ne {tid sid : Nat} {store : Store}
    (st : ScheduleStatus) (ea : Option Nat) (r : Option String) (now : Nat)
    (hne : tid ≠ sid) :
    findById tid (update_status store sid st ea r now).1 = findById tid store := by
  cases hfind : findById sid store with
  | none => simp [update_status, hfind]
  | some s =>
    rw [update_status_fst st ea r now hfind]
    exact findById_updateFirst_ne
      (fun u _ => by rw [updateStatusRow_id]; exact findById_id_eq hfind) hne _

lemma findById_update_status_eq {sid : Nat} {store : Store} {s : ScheduleR}
    (st : ScheduleStatus) (ea : Option Nat) (r : Option String) (now : Nat)
    (h : findById sid store = some s) :
    findById sid (update_status store sid st ea r now).1 =
      some (updateStatusRow now st ea r s) := by
  rw [update_status_fst st ea r now h]
  rw [findById_updateFirst_eq
    (fun u _ => by rw [updateStatusRow_id]; exact findById_id_eq h), h]
  rfl

/-! ### Stores with unique ids (spec §3: `id` is immutable and unique) -/

/-- The ids of the rows of a store. -/
def storeIds (store : Store) : List Nat := store.map (fun s => s.id)

lemma eq_of_mem_of_id_eq {store : Store} (hnd : (storeIds store).Nodup) :
    ∀ {t u : ScheduleR}, t ∈ store → u ∈ store → t.id = u.id → t = u := by
  induction store with
  | nil => intro t u ht; exact absurd ht (by simp)
  | cons s rest ih =>
    rw [storeIds, List.map_cons, List.nodup_cons] at hnd
    intro t u ht hu hid
    rcases List.mem_cons.mp ht with h1 | h1 <;> rcases List.mem_cons.mp hu with h2 | h2
    · exact h1.trans h2.symm
    · exfalso
      apply hnd.1
      have hm : u.id ∈ List.map (fun s => s.id) rest := List.mem_map_of_mem _ h2
      rw [← hid, h1] at hm
      exact hm
    · exfalso
      apply hnd.1
      have hm : t.id ∈ List.map (fun s => s.id) rest := List.mem_map_of_mem _ h1
      rw [hid, h2] at hm
      exact hm
    · exact ih hnd.2 h1 h2 hid

lemma findById_eq_none_iff {sid : Nat} {store : Store} :
    findById sid store = none ↔ ∀ t ∈ store, t.id ≠ sid := by
  constructor
  · intro h t ht
    have := List.find?_eq_none.mp h t ht
    simpa using this
  · intro h
    exact List.find?_eq_none.mpr (fun t ht => by simpa using h t ht)

lemma updateFirst_eq_map {sid : Nat} {f : ScheduleR → ScheduleR} :
    ∀ {store : Store}, (storeIds store).Nodup →
      updateFirst sid f store =
        store.map (fun t => if t.id = sid then f t else t) := by
  intro store
  induction store with
  | nil => intro _; rfl
  | cons s rest ih =>
    intro hnd
    rw [storeIds, List.map_cons, List.nodup_cons] at hnd
    by_cases hs : s.id = sid
    · rw [updateFirst, if_pos (by simpa using hs), List.map_cons, if_pos hs]
      have : rest.map (fun t => if t.id = sid then f t else t) = rest := by
        rw [show rest = rest.map id from (List.map_id rest).symm]
        rw [List.map_map]
        refine List.map_congr_left (fun t ht => ?_)
        have : t.id ≠ sid := fun h =>
          hnd.1 (hs ▸ h ▸ List.mem_map_of_mem _ ht)
        simp [this]
      rw [this]
    · rw [updateFirst, if_neg (by simpa using hs), List.map_cons, if_neg hs, ih hnd.2]

lemma update_status_fst_map {sid : Nat} {store : Store}
    (st : ScheduleStatus) (ea : Option Nat) (r : Option String) (now : Nat)
    (hnd : (storeIds store).Nodup) :
    (update_status store sid st ea r now).1 =
      store.map (fun t => if t.id = sid then updateStatusRow now st ea r t else t) := by
  cases hfind : findById sid store with
  | none =>
    have h0 : ∀ t ∈ store, t.id ≠ sid := findById_eq_none_iff.mp hfind
    rw [update_status, hfind]
    calc store = store.map id := (List.map_id store).symm
      _ = store.map (fun t => if t.id = sid then updateStatusRow now st ea r t else t) :=
        List.map_congr_left (fun t ht => by simp [h0 t ht])
  | some s =>
    rw [update_status_fst st ea r now hfind, updateFirst_eq_map hnd]
    refine List.map_congr_left (fun t ht => ?_)
    by_cases h : t.id = sid
    · have : t = s := eq_of_mem_of_id_eq hnd ht
        (List.mem_of_find?_eq_some hfind) (h.trans (findById_id_eq hfind).symm)
    -- the single row matching `sid` is exactly the row `findById` returned
      simp [h, this]
    · simp [h]

lemma storeIds_map_id_preserving {store : Store} {g : ScheduleR → ScheduleR}
    (hg : ∀ t, (g t).id = t.id) : storeIds (store.map g) = storeIds store := by
  rw [storeIds, storeIds, List.map_map]
  exact List.map_congr_left (fun t _ => hg t)

lemma updateStatusRow_proc_idem (tP : Nat) (t : ScheduleR) :
    updateStatusRow tP ScheduleStatus.PROCESSING none none
      (updateStatusRow tP ScheduleStatus.PROCESSING none none t) =
    updateStatusRow tP ScheduleStatus.PROCESSING none none t := rfl

lemma runProcessingSteps_map (tP : Nat) :
    ∀ (units : List ScheduleR) (store : Store), (storeIds store).Nodup →
      runProcessingSteps store units tP =
        store.map (fun t =>
          if t.id ∈ units.map (fun u => u.id) then
            updateStatusRow tP ScheduleStatus.PROCESSING none none t
          else t) := by
  intro units
  induction units with
  | nil =>
    intro store _
    rw [runProcessingSteps, List.foldl_nil]
    calc store = store.map id := (List.map_id store).symm
      _ = _ := List.map_congr_left (fun t _ => by simp)
  | cons u rest ih =>
    intro store hnd
    have hstep : runProcessingSteps store (u :: rest) tP =
        runProcessingSteps
          ((update_status store u.id ScheduleStatus.PROCESSING none none tP).1) rest tP := by
      rw [runProcessingSteps, runProcessingSteps, List.foldl_cons]
    have hrow : ∀ t : ScheduleR,
        ((fun t => if t.id = u.id then
            updateStatusRow tP ScheduleStatus.PROCESSING none none t else t) t).id = t.id := by
      intro t; by_cases h : t.id = u.id <;> simp [h, updateStatusRow_id]
    rw [hstep, update_status_fst_map _ _ _ _ hnd,
      ih _ (by rw [storeIds_map_id_preserving hrow]; exact hnd), List.map_map]
    refine List.map_congr_left (fun t _ => ?_)
    by_cases h1 : t.id = u.id
    · by_cases h2 : t.id ∈ rest.map (fun u => u.id) <;>
        simp [Function.comp, h1, h2, updateStatusRow_id, updateStatusRow_proc_idem]
    · by_cases h2 : t.id ∈ rest.map (fun u => u.id) <;>
        simp [Function.comp, h1, h2]

/-! ### Frame lemmas for execution units -/

lemma findById_execute_single_ne {tid : Nat} {store : Store} {sch : ScheduleR}
    (o : SendOutcome) (tProc tDone : Nat) (hne : tid ≠ sch.id) :
    findById tid (execute_single_email_schedule store sch o tProc tDone) =
      findById tid store := by
  cases o with
  | success r =>
    simp only [execute_single_email_schedule]
    rw [findById_update_status_ne _ _ _ _ hne, findById_update_status_ne _ _ _ _ hne]
  | failure e =>
    simp only [execute_single_email_schedule]
    rw [findById_handle_failure_ne _ _ hne, findById_update_status_ne _ _ _ _ hne]

lemma findById_runUnits_ne {tid : Nat} (outcome : Nat → SendOutcome)
    (tProc tDone : Nat) :
    ∀ (units : List ScheduleR) (store : Store), (∀ u ∈ units, u.id ≠ tid) →
      findById tid (runUnits store units outcome tProc tDone) = findById tid store := by
  intro units
  induction units with
  | nil => intro store _; rfl
  | cons u rest ih =>
    intro store h
    rw [runUnits, List.foldl_cons, ← runUnits, ih _ (fun v hv => h v (List.mem_cons_of_mem _ hv)),
      findById_execute_single_ne _ _ _ (fun he => h u (List.mem_cons_self _ _) he.symm)]

/-! ### The retry-count invariant -/

/-- The inductive invariant behind the `retry_count` bound: the count never
exceeds `max(max_retry, 1)`, and a schedule the engine may still fail
(PENDING or PROCESSING) is strictly below that bound. -/
def RetryInv (t : ScheduleR) : Prop :=
  t.retry_count ≤ max t.max_retry 1 ∧
    ((t.status = ScheduleStatus.PENDING ∨ t.status = ScheduleStatus.PROCESSING) →
      t.retry_count < max t.max_retry 1)

lemma engineStep_preserves_retryInv {s1 s2 : Store}
    (h : ∀ t ∈ s1, RetryInv t) (hs : EngineStep s1 s2) : ∀ t ∈ s2, RetryInv t := by
  cases hs with
  | markProcessing sid s now hfind hst =>
    intro t ht
    rw [update_status_fst _ _ _ _ hfind] at ht
    rcases mem_updateFirst ht with h1 | ⟨u, hu, ht⟩
    · exact h t h1
    · rw [hfind] at hu
      cases hu
      have hinv := h s (List.mem_of_find?_eq_some hfind)
      have hlt := hinv.2 (Or.inl hst)
      subst ht
      exact ⟨le_of_lt hlt, fun _ => hlt⟩
  | complete sid s now result hfind hst =>
    intro t ht
    rw [update_status_fst _ _ _ _ hfind] at ht
    rcases mem_updateFirst ht with h1 | ⟨u, hu, ht⟩
    · exact h t h1
    · rw [hfind] at hu
      cases hu
      have hinv := h s (List.mem_of_find?_eq_some hfind)
      subst ht
      refine ⟨hinv.1, fun hc => ?_⟩
      rcases hc with hc | hc <;> simp [updateStatusRow] at hc
  | fail sid s now msg hfind hst =>
    intro t ht
    rw [handle_failure_fst _ _ hfind] at ht
    rcases mem_updateFirst ht with h1 | ⟨u, hu, ht⟩
    · exact h t h1
    · rw [hfind] at hu
      cases hu
      have hinv := h s (List.mem_of_find?_eq_some hfind)
      have hlt := hinv.2 (Or.inr hst)
      subst ht
      constructor
      · rw [RetryInv] at *
        rw [handleFailureRow_retry_count, handleFailureRow_max_retry]
        omega
      · intro hc
        by_cases hb : s.max_retry ≤ s.retry_count + 1
        · rcases hc with hc | hc <;>
            rw [handleFailureRow_status_failed _ _ _ hb] at hc <;>
            exact absurd hc (by simp)
        · rw [handleFailureRow_retry_count, handleFailureRow_max_retry]
          omega

lemma engineReach_preserves_retryInv {s1 s2 : Store}
    (hreach : EngineReach s1 s2) (h : ∀ t ∈ s1, RetryInv t) : ∀ t ∈ s2, RetryInv t := by
  induction hreach with
  | refl => exact h
  | step _ hstep ih => exact engineStep_preserves_retryInv ih hstep

/-! ### Lemmas about the cycle loop -/

lemma cycleLoop_all_true (l : List ScheduleR) :
    cycleLoop (fun _ => true) l =
      ⟨l.length, 0, l.map (fun s => (s.id, "started")), l⟩ := by
  induction l with
  | nil => rfl
  | cons s rest ih => simp [cycleLoop, ih]

lemma cycleLoop_queued_sub {dispatchOk : Nat → Bool} :
    ∀ {l : List ScheduleR} {u : ScheduleR},
      u ∈ (cycleLoop dispatchOk l).queued → u ∈ l ∧ dispatchOk u.id = true := by
  intro l
  induction l with
  | nil => intro u hu; exact absurd hu (by simp [cycleLoop])
  | cons s rest ih =>
    intro u hu
    rw [cycleLoop] at hu
    by_cases hd : dispatchOk s.id
    · rw [if_pos hd] at hu
      rcases List.mem_cons.mp hu with h1 | h1
      · subst h1
        exact ⟨List.mem_cons_self _ _, hd⟩
      · exact ⟨List.mem_cons_of_mem _ (ih h1).1, (ih h1).2⟩
    · rw [if_neg hd] at hu
      exact ⟨List.mem_cons_of_mem _ (ih hu).1, (ih hu).2⟩

lemma cycleLoop_details_failed {dispatchOk : Nat → Bool} :
    ∀ {l : List ScheduleR} {s : ScheduleR}, s ∈ l → dispatchOk s.id = false →
      (s.id, "failed") ∈ (cycleLoop dispatchOk l).details := by
  intro l
  induction l with
  | nil => intro s hs; exact absurd hs (by simp)
  | cons u rest ih =>
    intro s hs hd
    rw [cycleLoop]
    rcases List.mem_cons.mp hs with h1 | h1
    · subst h1
      rw [if_neg (by simp [hd])]
      exact List.mem_cons_self _ _
    · by_cases hu : dispatchOk u.id
      · rw [if_pos hu]
        exact List.mem_cons_of_mem _ (ih h1 hd)
      · rw [if_neg hu]
        exact List.mem_cons_of_mem _ (ih h1 hd)

/-! ## Concrete rows used to instantiate the theorems -/

/-- A freshly created EMAIL schedule: PENDING, `retry_count = 0`, default
`max_retry = 3` and `retry_interval = 300`, due at second 59 of the first
minute after the epoch. -/
def baseSched : ScheduleR :=
  { id := 1, api_key_id := 1, schedule_name := "demo", schedule_type := ScheduleType.EMAIL,
    scheduled_at := 59000000, timezone := "UTC", payload := "\x7b\x7d",
    status := ScheduleStatus.PENDING, executed_at := none, max_retry := 3,
    retry_count := 0, retry_interval := 300, result := none, error_message := none,
    created_at := 0, updated_at := 0 }

/-- Like `baseSched` but with `max_retry = 0`. -/
def zeroRetrySched : ScheduleR := { baseSched with max_retry := 0 }

/-- Like `baseSched` but with a 1-second `retry_interval`. -/
def shortIntervalSched : ScheduleR := { baseSched with retry_interval := 1 }

/-! ## Claim theorems -/

/-- C1: for every schedule present in the store, one `handle_failure`
(`recordFailureAndReschedule`) call increments `retry_count` by exactly 1 and
sets `error_message` to the given message; if the incremented count reaches
`max_retry` the status becomes FAILED, otherwise the status becomes PENDING
and `scheduled_at` becomes the current time with its second and microsecond
components zeroed plus `retry_interval` seconds. -/
theorem handle_failure_retry_reschedule (store : Store) (sid : Nat) (msg : String)
    (now : Nat) (s : ScheduleR) (hfind : findById sid store = some s) :
    ∃ s', (handle_failure store sid msg now).2 = some s' ∧
      s'.retry_count = s.retry_count + 1 ∧
      s'.error_message = some msg ∧
      (s.max_retry ≤ s.retry_count + 1 → s'.status = ScheduleStatus.FAILED) ∧
      (s.retry_count + 1 < s.max_retry →
        s'.status = ScheduleStatus.PENDING ∧
        s'.scheduled_at = truncToMinute now + s.retry_interval * usPerSecond) := by
  refine ⟨handleFailureRow now msg s, handle_failure_snd msg now hfind,
    handleFailureRow_retry_count now msg s,
    handleFailureRow_error_message now msg s,
    fun hb => handleFailureRow_status_failed now msg s hb,
    fun hlt => ?_⟩
  have hb : ¬ s.max_retry ≤ s.retry_count + 1 := by omega
  exact ⟨handleFailureRow_status_pending now msg s hb,
    handleFailureRow_scheduled_at_pending now msg s hb⟩

/-- Witness for C1: one failure of the fresh schedule `baseSched`
(`retry_count 0 < max_retry 3`) at time 125000000 µs (2 min 5 s). -/
theorem handle_failure_retry_reschedule_witness :
    ∃ s', (handle_failure [baseSched] 1 "boom" 125000000).2 = some s' ∧
      s'.retry_count = baseSched.retry_count + 1 ∧
      s'.error_message = some ("boom") ∧
      (baseSched.max_retry ≤ baseSched.retry_count + 1 →
        s'.status = ScheduleStatus.FAILED) ∧
      (baseSched.retry_count + 1 < baseSched.max_retry →
        s'.status = ScheduleStatus.PENDING ∧
        s'.scheduled_at = truncToMinute 125000000 + baseSched.retry_interval * usPerSecond) :=
  handle_failure_retry_reschedule [baseSched] 1 "boom" 125000000 baseSched rfl

/-- C2 counterexample: a schedule with `max_retry = 0` taken through one
engine failure round (PENDING → PROCESSING → `handle_failure`) ends with
`retry_count = 1 > 0 = max_retry`, so the claimed invariant
`retry_count <= max_retry` is false for `max_retry = 0`. -/
theorem retry_bound_zero_max_retry_violation :
    ((handle_failure
        (update_status [zeroRetrySched] 1 ScheduleStatus.PROCESSING none none 60000000).1
        1 "boom" 60000001).2.map
      (fun s' => decide (s'.retry_count ≤ s'.max_retry))) = some false := by rfl

/-- C2 amended: over every sequence of engine transitions from a store of
freshly created schedules (`retry_count = 0`), every schedule satisfies
`retry_count ≤ max(max_retry, 1)`; in particular `retry_count ≤ max_retry`
holds whenever `max_retry ≥ 1`, but a schedule with `max_retry = 0` reaches
`retry_count = 1` on its first failure. -/
theorem retry_bound_invariant (s0 s : Store) (hreach : EngineReach s0 s)
    (h0 : ∀ t ∈ s0, t.retry_count = 0) :
    ∀ t ∈ s, t.retry_count ≤ max t.max_retry 1 ∧
      (1 ≤ t.max_retry → t.retry_count ≤ t.max_retry) := by
  have hinv : ∀ t ∈ s0, RetryInv t := by
    intro t ht
    have := h0 t ht
    exact ⟨by omega, fun _ => by omega⟩
  have hres := engineReach_preserves_retryInv hreach hinv
  intro t ht
  have := (hres t ht).1
  exact ⟨this, fun h1 => by omega⟩

/-- Witness for C2 amended: the singleton fresh store `[baseSched]` with the
empty transition sequence. -/
theorem retry_bound_invariant_witness :
    baseSched.retry_count ≤ max baseSched.max_retry 1 ∧
      (1 ≤ baseSched.max_retry → baseSched.retry_count ≤ baseSched.max_retry) :=
  retry_bound_invariant [baseSched] [baseSched] (EngineReach.refl _)
    (fun t ht => by
      rw [List.mem_singleton] at ht
      rw [ht]
      rfl)
    baseSched (List.mem_singleton.mpr rfl)

/-- C3: `get_pending_schedules_by_time_and_type` returns exactly the
schedules of the store with status PENDING, `scheduled_at ≤ now` and the
given kind — nothing else is returned and every qualifying schedule is
included.  (The claim's concrete scenario follows: a PENDING EMAIL schedule
due 1 second in the past satisfies the right-hand side for kind EMAIL and
fails it for kind SMS.) -/
theorem get_pending_schedules_characterization (store : Store) (now : Nat)
    (ty : ScheduleType) (s : ScheduleR) :
    s ∈ get_pending_schedules_by_time_and_type store now ty ↔
      s ∈ store ∧ s.status = ScheduleStatus.PENDING ∧
        s.scheduled_at ≤ now ∧ s.schedule_type = ty := by
  rw [get_pending_schedules_by_time_and_type, List.mem_filter]
  simp only [isDuePendingOfType, Bool.and_eq_true, decide_eq_true_eq]
  tauto

/-- C4 counterexample: the cycle endpoint performs no store mutation before
its response — every transition happens in the background tasks it queues.
Its model therefore takes the store and returns only counts and queued units.
A second back-to-back call that arrives before any queued unit of the first
call has run operates on the identical store and starts the same schedule
again: it reports 1 started, not 0, refuting the claim that the first call
has already moved every matching schedule to PROCESSING. -/
theorem cycle_not_idempotent_before_units_run :
    (execute_pending_email_schedules [baseSched] 125000000 (fun _ => true)).executed_count = 1 ∧
    (execute_pending_email_schedules [baseSched] 125000000 (fun _ => true)).queued = [baseSched] ∧
    ¬ (execute_pending_email_schedules [baseSched] 125000000 (fun _ => true)).executed_count = 0 := by
  refine ⟨rfl, rfl, by decide⟩

/-- C4 amended: if every execution unit queued by the first call has
performed (at least) its PROCESSING transition before the second call, and
the store's ids are unique, the second call with the same clock and no new
schedules starts zero schedules. -/
theorem cycle_idempotent_after_processing (store : Store) (now tP : Nat)
    (hnd : (storeIds store).Nodup) :
    (execute_pending_email_schedules
      (runProcessingSteps store
        (execute_pending_email_schedules store now (fun _ => true)).queued tP)
      now (fun _ => true)).executed_count = 0 := by
  rw [execute_pending_email_schedules, cycleLoop_all_true]
  rw [execute_pending_email_schedules, cycleLoop_all_true]
  rw [runProcessingSteps_map _ _ _ hnd]
  have hempty : get_pending_schedules_by_time_and_type
      (store.map (fun t =>
        if t.id ∈ (get_pending_schedules_by_time_and_type store now ScheduleType.EMAIL).map
            (fun u => u.id) then
          updateStatusRow tP ScheduleStatus.PROCESSING none none t
        else t))
      now ScheduleType.EMAIL = [] := by
    rw [get_pending_schedules_by_time_and_type, List.filter_eq_nil_iff]
    intro t' ht'
    rcases List.mem_map.mp ht' with ⟨t, ht, hteq⟩
    subst hteq
    by_cases hp : isDuePendingOfType now ScheduleType.EMAIL t = true
    · have hmem : t.id ∈ (get_pending_schedules_by_time_and_type store now
          ScheduleType.EMAIL).map (fun u => u.id) :=
        List.mem_map_of_mem _ (List.mem_filter.mpr ⟨ht, hp⟩)
      rw [if_pos hmem]
      simp [isDuePendingOfType, updateStatusRow]
    · have hmem : t.id ∉ (get_pending_schedules_by_time_and_type store now
          ScheduleType.EMAIL).map (fun u => u.id) := by
        intro hin
        rcases List.mem_map.mp hin with ⟨u, hu, huid⟩
        have hud := List.mem_filter.mp hu
        have : u = t := eq_of_mem_of_id_eq hnd hud.1 ht huid
        exact hp (this ▸ hud.2)
      rw [if_neg hmem]
      exact hp
  rw [hempty]
  rfl

/-- Witness for C4 amended: the singleton store `[baseSched]`, whose one due
schedule is marked PROCESSING by its unit; the second call starts nothing. -/
theorem cycle_idempotent_after_processing_witness :
    (execute_pending_email_schedules
      (runProcessingSteps [baseSched]
        (execute_pending_email_schedules [baseSched] 125000000 (fun _ => true)).queued 125000001)
      125000000 (fun _ => true)).executed_count = 0 :=
  cycle_idempotent_after_processing [baseSched] 125000000 125000001 (by decide)

/-- C5: a schedule with `max_retry = 0` and `retry_count = 0` whose first
execution attempt fails ends FAILED with `retry_count = 1`, `error_message`
set to the failure reason and `result` still unset. -/
theorem zero_max_retry_first_failure (store : Store) (sch : ScheduleR)
    (err : String) (tProc tDone : Nat)
    (hfind : findById sch.id store = some sch)
    (hmr : sch.max_retry = 0) (hrc : sch.retry_count = 0) (hres : sch.result = none) :
    ∃ s', findById sch.id
        (execute_single_email_schedule store sch (SendOutcome.failure err) tProc tDone) =
        some s' ∧
      s'.status = ScheduleStatus.FAILED ∧ s'.retry_count = 1 ∧
      s'.error_message = some err ∧ s'.result = none := by
  have h1 : findById sch.id
      (update_status store sch.id ScheduleStatus.PROCESSING none none tProc).1 =
      some (updateStatusRow tProc ScheduleStatus.PROCESSING none none sch) :=
    findById_update_status_eq _ _ _ _ hfind
  refine ⟨handleFailureRow tDone err
      (updateStatusRow tProc ScheduleStatus.PROCESSING none none sch), ?_, ?_, ?_, ?_, ?_⟩
  · simp only [execute_single_email_schedule]
    exact findById_handle_failure_eq _ _ h1
  · refine handleFailureRow_status_failed _ _ _ ?_
    show sch.max_retry ≤ sch.retry_count + 1
    omega
  · rw [handleFailureRow_retry_count]
    show sch.retry_count + 1 = 1
    omega
  · exact handleFailureRow_error_message _ _ _
  · rw [handleFailureRow_result]
    exact hres

/-- Witness for C5: `zeroRetrySched` (`max_retry = 0`) failing its first
attempt with reason "send failed". -/
theorem zero_max_retry_first_failure_witness :
    ∃ s', findById zeroRetrySched.id
        (execute_single_email_schedule [zeroRetrySched] zeroRetrySched
          (SendOutcome.failure ("send failed")) 125000000 125000002) = some s' ∧
      s'.status = ScheduleStatus.FAILED ∧ s'.retry_count = 1 ∧
      s'.error_message = some ("send failed") ∧ s'.result = none :=
  zero_max_retry_first_failure [zeroRetrySched] zeroRetrySched ("send failed")
    125000000 125000002 rfl rfl rfl rfl

/-- C6 counterexample: `update_status` called with the absent id 999 returns
the pair `(store, none)` — the store unchanged and `None` for the schedule —
instead of failing with a `NotFoundError`: the method has no error path at
all, so the claim that every absent id raises rather than succeeding
silently is false. -/
theorem update_status_absent_returns_none :
    update_status [baseSched] 999 ScheduleStatus.COMPLETED none none 7 =
      ([baseSched], none) := rfl

/-- C6 amended: for every absent id, `update_status` succeeds silently —
it leaves the store unchanged and returns `none`; no `NotFoundError` (or any
other error) is signalled. -/
theorem update_status_absent_silent (store : Store) (sid : Nat)
    (st : ScheduleStatus) (ea : Option Nat) (r : Option String) (now : Nat)
    (habs : findById sid store = none) :
    update_status store sid st ea r now = (store, none) := by
  simp [update_status, habs]

/-- Witness for C6 amended: id 999 on the singleton store. -/
theorem update_status_absent_silent_witness :
    update_status [baseSched] 999 ScheduleStatus.PROCESSING none none 3 =
      ([baseSched], none) :=
  update_status_absent_silent [baseSched] 999 ScheduleStatus.PROCESSING none none 3 rfl

/-- C7 counterexample: `handle_failure` re-arms with
`utcnow().replace(second=0, microsecond=0) + retry_interval`, which zeroes
the *second* component (truncating to the whole minute).  For
`shortIntervalSched` (due and failed at 59 s past the minute,
`retry_interval = 1`) the new `scheduled_at` is minute start + 1 s =
1000000 µs, strictly earlier than the previous value 59000000 µs — so
`scheduled_at` is not monotonically non-decreasing for all retry intervals. -/
theorem reschedule_moves_scheduled_at_backwards :
    ((handle_failure [shortIntervalSched] 1 "err" 59000000).2.map
        (fun s' => s'.scheduled_at)) = some 1000000 ∧
      shortIntervalSched.scheduled_at = 59000000 ∧ (1000000 : Nat) < 59000000 :=
  ⟨rfl, rfl, by decide⟩

/-- C7 amended: whenever `retry_interval ≥ 60` seconds (the default is 300),
a `handle_failure` call at any time at which the schedule was due sets a
`scheduled_at` that is ≥ the previous one: the minute truncation discards
less than 60 s, which the interval then more than restores.  (The FAILED
branch leaves `scheduled_at` unchanged.) -/
theorem reschedule_monotonic_for_minute_intervals (store : Store) (sid : Nat)
    (msg : String) (now : Nat) (s s' : ScheduleR)
    (hfind : findById sid store = some s)
    (hdue : s.scheduled_at ≤ now) (hint : 60 ≤ s.retry_interval)
    (hout : (handle_failure store sid msg now).2 = some s') :
    s.scheduled_at ≤ s'.scheduled_at := by
  rw [handle_failure_snd msg now hfind] at hout
  have hs' : s' = handleFailureRow now msg s := (Option.some.injEq _ _ ▸ hout).symm
  subst hs'
  by_cases hb : s.max_retry ≤ s.retry_count + 1
  · rw [handleFailureRow_scheduled_at_failed _ _ _ hb]
  · rw [handleFailureRow_scheduled_at_pending _ _ _ hb]
    have hmod_lt : now % usPerMinute < usPerMinute := Nat.mod_lt _ (by decide)
    have hmod_le : now % usPerMinute ≤ now := Nat.mod_le _ _
    have hprod : usPerMinute ≤ s.retry_interval * usPerSecond := by
      calc usPerMinute = 60 * usPerSecond := by decide
        _ ≤ s.retry_interval * usPerSecond := Nat.mul_le_mul_right _ hint
    rw [truncToMinute]
    omega

/-- Witness for C7 amended: `baseSched` (interval 300 s) due at 59000000 µs,
failed at 125000000 µs; the new `scheduled_at` is not earlier. -/
theorem reschedule_monotonic_for_minute_intervals_witness :
    baseSched.scheduled_at ≤ (handleFailureRow 125000000 "err" baseSched).scheduled_at :=
  reschedule_monotonic_for_minute_intervals [baseSched] 1 "err" 125000000 baseSched
    (handleFailureRow 125000000 "err" baseSched) rfl (by decide) (by decide) rfl

/-- C8: when dispatching the execution unit of a due PENDING EMAIL schedule
fails (the `add_task` call itself throws, before the unit runs), the cycle
reports the schedule failed-to-start in its details, queues no unit for it,
and — even after all the units the cycle did queue have run to completion
with arbitrary outcomes — the schedule's row is exactly as before: still
PENDING, every field unchanged, due again next cycle. -/
theorem dispatch_failure_leaves_schedule_untouched (store : Store) (now : Nat)
    (dispatchOk : Nat → Bool) (sch : ScheduleR) (outcome : Nat → SendOutcome)
    (tProc tDone : Nat)
    (hfind : findById sch.id store = some sch)
    (hst : sch.status = ScheduleStatus.PENDING)
    (hdue : sch.scheduled_at ≤ now)
    (hty : sch.schedule_type = ScheduleType.EMAIL)
    (hd : dispatchOk sch.id = false) :
    (sch.id, "failed") ∈ (execute_pending_email_schedules store now dispatchOk).details ∧
    sch ∉ (execute_pending_email_schedules store now dispatchOk).queued ∧
    findById sch.id
      (runUnits store (execute_pending_email_schedules store now dispatchOk).queued
        outcome tProc tDone) = some sch := by
  have hmem : sch ∈ get_pending_schedules_by_time_and_type store now ScheduleType.EMAIL :=
    List.mem_filter.mpr ⟨List.mem_of_find?_eq_some hfind,
      by simp [isDuePendingOfType, hst, hdue, hty]⟩
  refine ⟨cycleLoop_details_failed hmem hd, ?_, ?_⟩
  · intro hq
    have := (cycleLoop_queued_sub hq).2
    rw [hd] at this
    exact Bool.false_ne_true this
  · rw [findById_runUnits_ne _ _ _ _ _ ?_]
    · exact hfind
    · intro u hu heq
      have := (cycleLoop_queued_sub hu).2
      rw [heq, hd] at this
      exact Bool.false_ne_true this

/-- Witness for C8: `baseSched` due at 125000000 µs with a dispatch oracle
that always fails; all (zero) queued units run with a success outcome. -/
theorem dispatch_failure_leaves_schedule_untouched_witness :
    (baseSched.id, "failed") ∈
      (execute_pending_email_schedules [baseSched] 125000000 (fun _ => false)).details ∧
    baseSched ∉ (execute_pending_email_schedules [baseSched] 125000000 (fun _ => false)).queued ∧
    findById baseSched.id
      (runUnits [baseSched]
        (execute_pending_email_schedules [baseSched] 125000000 (fun _ => false)).queued
        (fun _ => SendOutcome.success ("ok")) 125000001 125000002) = some baseSched :=
  dispatch_failure_leaves_schedule_untouched [baseSched] 125000000 (fun _ => false)
    baseSched (fun _ => SendOutcome.success ("ok")) 125000001 125000002
    rfl rfl (by decide) rfl rfl

/-- C9: the effective sender address of a schedule execution is resolved by
the three-level fallback, in order and at execution time: the payload's
`sender_address` when present and non-empty; else — when the owning API-key
row exists — the address configured for that key's service name (itself
falling back to the global default when the service's variable is unset);
else the global default sender.  Resolution is a pure function of the single
schedule's own payload value and owner, applied afresh to each element of an
execution batch: the batch resolution is the elementwise map, so no value is
carried (cached) from one schedule to another. -/
theorem sender_resolution_three_level_fallback (db : List ApiKeyR)
    (cfg : NCloudConfigR) (ps : Option String) (kid : Nat) :
    (∀ v, ps = some v → v ≠ "" → resolveEffectiveSender db cfg ps kid = v) ∧
    ((ps = none ∨ ps = some ("")) →
      resolveEffectiveSender db cfg ps kid = get_sender_email_by_api_key db cfg kid) ∧
    (∀ k, db.find? (fun a => a.id == kid) = some k →
      get_sender_email_by_api_key db cfg kid =
        get_sender_email_by_service cfg k.service_name) ∧
    (db.find? (fun a => a.id == kid) = none →
      get_sender_email_by_api_key db cfg kid = sender_address cfg) ∧
    (∀ sn, cfg.env ("NCLOUD_SENDER_EMAIL_" ++ serviceEmailKey sn) = "" →
      get_sender_email_by_service cfg sn = sender_address cfg) ∧
    (∀ xs : List (Option String × Nat),
      resolveSendersForExecutions db cfg xs =
        xs.map (fun x => resolveEffectiveSender db cfg x.1 x.2)) := by
  refine ⟨?_, ?_, ?_, ?_, ?_, fun xs => rfl⟩
  · intro v hv hne
    rw [hv, resolveEffectiveSender, if_neg hne]
  · intro hps
    rcases hps with h | h <;> rw [h, resolveEffectiveSender]
    rw [if_pos rfl]
  · intro k hk
    rw [get_sender_email_by_api_key, hk]
  · intro hk
    rw [get_sender_email_by_api_key, hk]
  · intro sn hsn
    simp [get_sender_email_by_service, hsn]

/-- Witness for C9: with an explicit payload address present, the payload
value wins. -/
theorem sender_resolution_three_level_fallback_witness :
    resolveEffectiveSender [] ⟨fun _ => ""⟩ (some ("me@svc.example")) 1 = "me@svc.example" :=
  (sender_resolution_three_level_fallback [] ⟨fun _ => ""⟩ (some ("me@svc.example")) 1).1
    ("me@svc.example") rfl (by decide)

/-- C10: `update_status` on a present schedule mutates only `status`,
`updated_at`, and — only when the corresponding argument is provided (and,
for `result`, non-empty) — `executed_at` and `result`; every other field is
returned unchanged, and passing `None` for `executed_at` or `result` leaves
the stored values as they were. -/
theorem update_status_frame (store : Store) (sid : Nat) (st : ScheduleStatus)
    (ea : Option Nat) (r : Option String) (now : Nat) (s : ScheduleR)
    (hfind : findById sid store = some s) :
    ∃ s', (update_status store sid st ea r now).2 = some s' ∧
      s'.status = st ∧ s'.updated_at = now ∧
      s'.id = s.id ∧ s'.api_key_id = s.api_key_id ∧
      s'.schedule_name = s.schedule_name ∧ s'.schedule_type = s.schedule_type ∧
      s'.scheduled_at = s.scheduled_at ∧ s'.timezone = s.timezone ∧
      s'.payload = s.payload ∧ s'.max_retry = s.max_retry ∧
      s'.retry_count = s.retry_count ∧ s'.retry_interval = s.retry_interval ∧
      s'.error_message = s.error_message ∧ s'.created_at = s.created_at ∧
      (ea = none → s'.executed_at = s.executed_at) ∧
      (∀ t, ea = some t → s'.executed_at = some t) ∧
      ((r = none ∨ r = some ("")) → s'.result = s.result) ∧
      (∀ v, r = some v → v ≠ "" → s'.result = some v) := by
  refine ⟨updateStatusRow now st ea r s, update_status_snd st ea r now hfind,
    rfl, rfl, rfl, rfl, rfl, rfl, rfl, rfl, rfl, rfl, rfl, rfl, rfl, rfl,
    ?_, ?_, ?_, ?_⟩
  · intro h
    subst h
    rfl
  · intro t h
    subst h
    rfl
  · intro h
    rcases h with h | h
    · subst h
      rfl
    · subst h
      show (if ("" : String) = "" then s.result else some ("")) = s.result
      rw [if_pos rfl]
  · intro v h hne
    subst h
    show (if v = "" then s.result else some v) = some v
    rw [if_neg hne]

/-- Witness for C10: completing `baseSched` with an execution time and a
non-empty result. -/
theorem update_status_frame_witness :
    ∃ s', (update_status [baseSched] 1 ScheduleStatus.COMPLETED
        (some 125000002) (some ("sent")) 125000002).2 = some s' ∧
      s'.status = ScheduleStatus.COMPLETED ∧ s'.updated_at = 125000002 ∧
      s'.id = baseSched.id ∧ s'.api_key_id = baseSched.api_key_id ∧
      s'.schedule_name = baseSched.schedule_name ∧
      s'.schedule_type = baseSched.schedule_type ∧
      s'.scheduled_at = baseSched.scheduled_at ∧ s'.timezone = baseSched.timezone ∧
      s'.payload = baseSched.payload ∧ s'.max_retry = baseSched.max_retry ∧
      s'.retry_count = baseSched.retry_count ∧
      s'.retry_interval = baseSched.retry_interval ∧
      s'.error_message = baseSched.error_message ∧
      s'.created_at = baseSched.created_at ∧
      ((some 125000002 : Option Nat) = none → s'.executed_at = baseSched.executed_at) ∧
      (∀ t, (some 125000002 : Option Nat) = some t → s'.executed_at = some t) ∧
      (((some ("sent") : Option String) = none ∨ (some ("sent") : Option String) = some ("")) →
        s'.result = baseSched.result) ∧
      (∀ v, (some ("sent") : Option String) = some v → v ≠ "" → s'.result = some v) :=
  update_status_frame [baseSched] 1 ScheduleStatus.COMPLETED
    (some 125000002) (some ("sent")) 125000002 baseSched rfl

end NotifyHub
